import Mathlib

/-!
Verification of the frakti runtime-adaptation layer: a shallow embedding of
the translation and lifecycle-bridging logic that maps the kubelet runtime
API (consumer side) onto the hyperd pod-centric API (provider side).

Pure translation helpers (status mappers, resource translation, image
reference parsing, auth-config translation, time parsing) are embedded as
Lean functions. Stateful operations against the hyperd daemon are embedded
by treating the provider as a pure oracle (a record of response functions)
and recording the sequence of provider calls each operation issues.
-/

namespace Frakti

/-! ## Status mappers (pkg/hyper and pkg/manager) -/

/-- Consumer-side sandbox state enum (kubeapi.PodSandBoxState). -/
inductive PodSandBoxState where
  | READY
  | NOTREADY
deriving DecidableEq, Repr

/-- Consumer-side container state enum (kubeapi.ContainerState). -/
inductive ContainerState where
  | CREATED
  | RUNNING
  | EXITED
  | UNKNOWN
deriving DecidableEq, Repr

/-- `toPodSandboxState` from the source: READY iff the provider phase is
exactly "running" or "Running", NOTREADY otherwise. -/
def toPodSandboxState (state : String) : PodSandBoxState :=
  if state = "running" ∨ state = "Running" then .READY else .NOTREADY

/-- `toKubeContainerState` from the source: a switch on the provider phase
string with cases "running", "pending", "failed"/"succeeded" and a default. -/
def toKubeContainerState (state : String) : ContainerState :=
  if state = "running" then .RUNNING
  else if state = "pending" then .CREATED
  else if state = "failed" ∨ state = "succeeded" then .EXITED
  else .UNKNOWN

/-! ## Resource translator (CreatePodSandbox, both entry surfaces)

CPU and memory limits are float64 values in the source; they are embedded
as rational numbers, with Go's `int(x)` conversion (truncation toward
zero) embedded as `ratTrunc`. -/

/-- Go `int(x)` conversion on a rational: truncation toward zero. -/
def ratTrunc (q : ℚ) : Int :=
  if q < 0 then q.ceil else q.floor

/-- The `config.Resources` input of CreatePodSandbox. `cpuLimits = some x`
models a non-nil `Resources.Cpu` whose `GetLimits()` returns `x` (a nil
inner `Limits` pointer makes `GetLimits()` return 0, i.e. `some 0`);
likewise for memory, whose limit is in bytes. -/
structure ResourcesConfig where
  cpuLimits : Option ℚ
  memoryLimits : Option ℚ
deriving DecidableEq, Repr

/-- The resource-translation block of `CreatePodSandbox` (identical in
`KubeHyperManager.CreatePodSandbox` and `HyperRuntime.CreatePodSandbox`):
defaults vcpu=1, memoryMB=128; a positive CPU limit is converted with
`int(limits + 0.5)` and clamped to 1 when that conversion yields 0; a
positive memory limit is converted with `int(limits / 1024 / 1024)`.
`none` for the whole input models a nil `config.Resources`. -/
def translateResources (resources : Option ResourcesConfig) : Int × Int :=
  match resources with
  | none => (1, 128)
  | some r =>
    let vcpu : Int :=
      match r.cpuLimits with
      | some limits =>
        if 0 < limits then
          let v := ratTrunc (limits + 1/2)
          if v = 0 then 1 else v
        else 1
      | none => 1
    let memory : Int :=
      match r.memoryLimits with
      | some limits =>
        if 0 < limits then ratTrunc (limits / 1024 / 1024) else 128
      | none => 128
    (vcpu, memory)

/-- For nonnegative arguments Go truncation agrees with the floor. -/
theorem ratTrunc_eq_floor (q : ℚ) (h : 0 ≤ q) : ratTrunc q = ⌊q⌋ := by
  rw [ratTrunc, if_neg (not_lt.mpr h), Rat.floor_def' q, ← Rat.floor_def]

/-- C3: both status-mapping functions are total Lean functions and match the
spec table exactly and case-sensitively: the sandbox mapper sends exactly
"running" and "Running" to READY and everything else to NOT_READY; the
container mapper sends "running" to RUNNING, "pending" to CREATED, "failed"
and "succeeded" to EXITED and every other string — including "Running" —
to UNKNOWN. -/
theorem statusMappers_match_table :
    (∀ phase : String,
      (toPodSandboxState phase = .READY ↔ (phase = "running" ∨ phase = "Running")) ∧
      (toPodSandboxState phase = .NOTREADY ↔ ¬(phase = "running" ∨ phase = "Running")) ∧
      (toKubeContainerState phase = .RUNNING ↔ phase = "running") ∧
      (toKubeContainerState phase = .CREATED ↔ phase = "pending") ∧
      (toKubeContainerState phase = .EXITED ↔ (phase = "failed" ∨ phase = "succeeded")) ∧
      (toKubeContainerState phase = .UNKNOWN ↔
        ¬(phase = "running" ∨ phase = "pending" ∨ phase = "failed" ∨ phase = "succeeded"))) ∧
    toKubeContainerState "Running" = .UNKNOWN := by
  refine ⟨fun phase => ?_, by decide⟩
  unfold toPodSandboxState toKubeContainerState
  split_ifs <;> simp_all

/-- Evaluation of the status mappers at concrete phases, through
`statusMappers_match_table`. -/
theorem statusMappers_match_table_witness :
    toKubeContainerState "Running" = .UNKNOWN ∧ toPodSandboxState "Running" = .READY := by
  have h := statusMappers_match_table
  exact ⟨((h.1 "Running").2.2.2.2.2).mpr (by decide), ((h.1 "Running").1).mpr (Or.inr rfl)⟩

/-- C4: resource translation is a total function (never errors) computing
vcpu = 1 when the CPU limit is absent or nonpositive and otherwise
floor(limit + 1/2) clamped up to 1 when that floor is 0, and memoryMB = 128
when the memory limit is absent or nonpositive and otherwise
floor(limit / 1024 / 1024); at the spec's example inputs it yields
(1, 128) for (cpu 0.4, mem 0) and (3, 300) for (cpu 2.6, mem 300 MiB). -/
theorem translateResources_spec :
    (translateResources none = (1, 128)) ∧
    (∀ m, (translateResources (some ⟨none, m⟩)).1 = 1) ∧
    (∀ c m, c ≤ 0 → (translateResources (some ⟨some c, m⟩)).1 = 1) ∧
    (∀ c m, 0 < c →
      (translateResources (some ⟨some c, m⟩)).1 =
        (if ⌊c + 1/2⌋ = 0 then 1 else ⌊c + 1/2⌋)) ∧
    (∀ c, (translateResources (some ⟨c, none⟩)).2 = 128) ∧
    (∀ c m, m ≤ 0 → (translateResources (some ⟨c, some m⟩)).2 = 128) ∧
    (∀ c m, 0 < m → (translateResources (some ⟨c, some m⟩)).2 = ⌊m / 1024 / 1024⌋) ∧
    (translateResources (some ⟨some (2/5), some 0⟩) = (1, 128)) ∧
    (translateResources (some ⟨some (13/5), some (300*1024*1024)⟩) = (3, 300)) := by
  refine ⟨rfl, fun m => rfl, ?_, ?_, fun c => ?_, ?_, ?_, ?_, ?_⟩
  · intro c m h
    simp [translateResources, if_neg (not_lt.mpr h)]
  · intro c m h
    have hnn : (0:ℚ) ≤ c + 1/2 := by linarith
    simp only [translateResources, if_pos h, ratTrunc_eq_floor _ hnn]
  · cases c <;> rfl
  · intro c m h
    cases c <;> simp [translateResources, if_neg (not_lt.mpr h)]
  · intro c m h
    have hnn : (0:ℚ) ≤ m / 1024 / 1024 := by positivity
    cases c <;> simp [translateResources, if_pos h, ratTrunc_eq_floor _ hnn]
  · norm_num [translateResources, ratTrunc, Rat.floor_def']
  · norm_num [translateResources, ratTrunc, Rat.floor_def']

/-- Evaluation of `translateResources_spec` at the concrete CPU limit 3 and
memory limit 2 MiB, discharging the positivity hypotheses. -/
theorem translateResources_spec_witness :
    (translateResources (some ⟨some 3, some 2097152⟩)).1 =
      (if ⌊(3:ℚ) + 1/2⌋ = 0 then 1 else ⌊(3:ℚ) + 1/2⌋) ∧
    (translateResources (some ⟨some 3, some 2097152⟩)).2 = ⌊(2097152:ℚ) / 1024 / 1024⌋ :=
  ⟨translateResources_spec.2.2.2.1 3 (some 2097152) (by decide),
   translateResources_spec.2.2.2.2.2.2.1 (some 3) 2097152 (by decide)⟩

/-- C5 counterexample: the memory limit 500000 bytes is positive, yet the
translated memoryMB is 0, violating the claimed invariant memoryMB ≥ 1. -/
theorem translateResources_positive_memory_yields_zero :
    (0:ℚ) < 500000 ∧ (translateResources (some ⟨none, some 500000⟩)).2 = 0 := by
  constructor
  · decide
  · norm_num [translateResources, ratTrunc, Rat.floor_def']

/-- C5 (amended): every translated resource pair has vcpu ≥ 1, and
memoryMB ≥ 1 holds whenever the memory limit is absent, nonpositive, or at
least 1048576 bytes (one MiB); positive limits below one MiB truncate to a
memoryMB of 0. -/
theorem translateResources_invariant :
    (∀ r, 1 ≤ (translateResources r).1) ∧
    1 ≤ (translateResources none).2 ∧
    (∀ c, 1 ≤ (translateResources (some ⟨c, none⟩)).2) ∧
    (∀ c m, m ≤ 0 → 1 ≤ (translateResources (some ⟨c, some m⟩)).2) ∧
    (∀ c m, (1048576:ℚ) ≤ m → 1 ≤ (translateResources (some ⟨c, some m⟩)).2) := by
  refine ⟨?_, by decide, fun c => by cases c <;> norm_num [translateResources], ?_, ?_⟩
  · intro r
    match r with
    | none => norm_num [translateResources]
    | some ⟨none, m⟩ => norm_num [translateResources]
    | some ⟨some c, m⟩ =>
      by_cases h : 0 < c
      · have hnn : (0:ℚ) ≤ c + 1/2 := by linarith
        have hfl : 0 ≤ ⌊c + 1/2⌋ := Int.floor_nonneg.mpr hnn
        simp only [translateResources, if_pos h, ratTrunc_eq_floor _ hnn]
        split_ifs with h0
        · exact le_refl 1
        · omega
      · simp [translateResources, if_neg h]
  · intro c m h
    cases c <;> simp [translateResources, if_neg (not_lt.mpr h)]
  · intro c m h
    have hpos : (0:ℚ) < m := lt_of_lt_of_le (by norm_num) h
    have hnn : (0:ℚ) ≤ m / 1024 / 1024 := by positivity
    have hone : (1:ℚ) ≤ m / 1024 / 1024 := by
      rw [div_div, le_div_iff₀ (by norm_num)]
      linarith
    cases c <;>
      simp only [translateResources, if_pos hpos, ratTrunc_eq_floor _ hnn] <;>
      exact Int.le_floor.mpr (by exact_mod_cast hone)

/-- Evaluation of `translateResources_invariant` at a concrete resource
request, discharging its hypotheses. -/
theorem translateResources_invariant_witness :
    1 ≤ (translateResources (some ⟨some 3, some 2097152⟩)).1 ∧
    1 ≤ (translateResources (some ⟨some 3, some 2097152⟩)).2 :=
  ⟨translateResources_invariant.1 (some ⟨some 3, some 2097152⟩),
   translateResources_invariant.2.2.2.2 (some 3) 2097152 (by decide)⟩

/-! ## Reference parser (parseRepositoryTag, both entry surfaces)

Image reference strings are embedded as lists of characters, so that Go's
byte-index slicing (`repos[:n]`, `repos[n+1:]`) becomes `take`/`drop`. -/

/-- `strings.Contains` / `strings.Index(...) >= 0` for a one-character
needle. -/
def containsChar (c : Char) : List Char → Bool
  | [] => false
  | x :: rest => if x = c then true else containsChar c rest

/-- `strings.Split` on a one-character separator: splits at every
occurrence, so a string with k separators yields k+1 parts. -/
def splitOnChar (sep : Char) : List Char → List (List Char)
  | [] => [[]]
  | c :: rest =>
    match splitOnChar sep rest with
    | [] => [[c]]
    | h :: t => if c = sep then [] :: h :: t else (c :: h) :: t

/-- `strings.LastIndex` for a one-character needle: index of the last
occurrence, `none` when absent. -/
def lastIndexOf (c : Char) : List Char → Option Nat
  | [] => none
  | x :: rest =>
    match lastIndexOf c rest with
    | some i => some (i + 1)
    | none => if x = c then some 0 else none

/-- The default tag "latest". -/
def latestTag : List Char := "latest".toList

/-- `parseRepositoryTag` from the source (textually identical in the two
entry surfaces): a reference containing '@' is split on all '@' and the
first two parts are returned; otherwise the reference is split at the last
':' unless there is none or the part after it contains '/', in which case
the tag defaults to "latest". -/
def parseRepositoryTag (repos : List Char) : List Char × List Char :=
  if containsChar '@' repos then
    let parts := splitOnChar '@' repos
    (parts.getD 0 [], parts.getD 1 [])
  else
    match lastIndexOf ':' repos with
    | none => (repos, latestTag)
    | some n =>
      let tag := repos.drop (n + 1)
      if containsChar '/' tag then (repos, latestTag)
      else (repos.take n, tag)

/-- Reference definition following the claim's words: split on all '@' and
keep parts[0]/parts[1]; without '@', the substring after the last ':'
(computed here from the reversed list) decides between the "latest" default
and a (repository, tag) split at that last ':'. -/
def specParseRepositoryTag (ref : List Char) : List Char × List Char :=
  if containsChar '@' ref then
    let parts := splitOnChar '@' ref
    (parts.getD 0 [], parts.getD 1 [])
  else if containsChar ':' ref then
    let tagPart := (ref.reverse.takeWhile (fun x => x != ':')).reverse
    if containsChar '/' tagPart then (ref, latestTag)
    else (((ref.reverse.dropWhile (fun x => x != ':')).drop 1).reverse, tagPart)
  else (ref, latestTag)

theorem containsChar_iff_mem (c : Char) (l : List Char) :
    containsChar c l = true ↔ c ∈ l := by
  induction l with
  | nil => simp [containsChar]
  | cons x rest ih =>
    by_cases hx : x = c
    · subst hx
      simp [containsChar]
    · simp [containsChar, hx, ih, Ne.symm hx]

theorem lastIndexOf_eq_none_iff (c : Char) (l : List Char) :
    lastIndexOf c l = none ↔ c ∉ l := by
  induction l with
  | nil => simp [lastIndexOf]
  | cons x rest ih =>
    unfold lastIndexOf
    rcases h : lastIndexOf c rest with _ | i
    · have hmem : c ∉ rest := ih.mp h
      by_cases hx : x = c
      · simp [hx]
      · simp [hx, hmem, Ne.symm hx]
    · have hmem : c ∈ rest := by
        by_contra hn
        rw [ih.mpr hn] at h
        exact Option.noConfusion h
      simp [hmem]

theorem lastIndexOf_some_mem (c : Char) (l : List Char) (i : Nat)
    (h : lastIndexOf c l = some i) : c ∈ l := by
  by_contra hn
  rw [(lastIndexOf_eq_none_iff c l).mpr hn] at h
  exact Option.noConfusion h

theorem takeWhile_append_left (c : Char) (xs ys : List Char) (h : c ∈ xs) :
    (xs ++ ys).takeWhile (fun x => x != c) = xs.takeWhile (fun x => x != c) := by
  induction xs with
  | nil => exact absurd h (List.not_mem_nil c)
  | cons x rest ih =>
    by_cases hx : x = c
    · subst hx
      simp [List.takeWhile_cons]
    · have hmem : c ∈ rest := by
        rcases List.mem_cons.mp h with h' | h'
        · exact absurd h'.symm hx
        · exact h'
      simp [List.takeWhile_cons, bne_iff_ne, hx, ih hmem]

theorem dropWhile_append_left (c : Char) (xs ys : List Char) (h : c ∈ xs) :
    (xs ++ ys).dropWhile (fun x => x != c) = xs.dropWhile (fun x => x != c) ++ ys := by
  induction xs with
  | nil => exact absurd h (List.not_mem_nil c)
  | cons x rest ih =>
    by_cases hx : x = c
    · subst hx
      simp [List.dropWhile_cons]
    · have hmem : c ∈ rest := by
        rcases List.mem_cons.mp h with h' | h'
        · exact absurd h'.symm hx
        · exact h'
      simp [List.dropWhile_cons, bne_iff_ne, hx, ih hmem]

theorem takeWhile_append_right (c : Char) (xs ys : List Char) (h : c ∉ xs) :
    (xs ++ ys).takeWhile (fun x => x != c) = xs ++ ys.takeWhile (fun x => x != c) := by
  induction xs with
  | nil => simp
  | cons x rest ih =>
    have hx : x ≠ c := fun he => h (he ▸ List.mem_cons_self x rest)
    have hmem : c ∉ rest := fun hm => h (List.mem_cons_of_mem x hm)
    simp [List.takeWhile_cons, bne_iff_ne, hx, ih hmem]

theorem dropWhile_append_right (c : Char) (xs ys : List Char) (h : c ∉ xs) :
    (xs ++ ys).dropWhile (fun x => x != c) = ys.dropWhile (fun x => x != c) := by
  induction xs with
  | nil => simp
  | cons x rest ih =>
    have hx : x ≠ c := fun he => h (he ▸ List.mem_cons_self x rest)
    have hmem : c ∉ rest := fun hm => h (List.mem_cons_of_mem x hm)
    simp [List.dropWhile_cons, bne_iff_ne, hx, ih hmem]

theorem dropWhile_ne_nil_of_mem (c : Char) (xs : List Char) (h : c ∈ xs) :
    xs.dropWhile (fun x => x != c) ≠ [] := by
  induction xs with
  | nil => exact absurd h (List.not_mem_nil c)
  | cons x rest ih =>
    by_cases hx : x = c
    · subst hx
      simp [List.dropWhile_cons]
    · have hmem : c ∈ rest := by
        rcases List.mem_cons.mp h with h' | h'
        · exact absurd h'.symm hx
        · exact h'
      have hb : (x != c) = true := by simp [bne_iff_ne, hx]
      rw [List.dropWhile_cons, if_pos hb]
      exact ih hmem

/-- The drop/take slices at the last occurrence of `c` coincide with the
reversed takeWhile/dropWhile computations of the reference definition. -/
theorem lastIndexOf_slices (c : Char) (l : List Char) (i : Nat)
    (h : lastIndexOf c l = some i) :
    l.drop (i + 1) = (l.reverse.takeWhile (fun x => x != c)).reverse ∧
    l.take i = ((l.reverse.dropWhile (fun x => x != c)).drop 1).reverse := by
  induction l generalizing i with
  | nil => exact Option.noConfusion h
  | cons x rest ih =>
    unfold lastIndexOf at h
    rcases hr : lastIndexOf c rest with _ | j
    · rw [hr] at h
      by_cases hx : x = c
      · rw [if_pos hx] at h
        obtain rfl : (0 : Nat) = i := Option.some.inj h
        subst hx
        have hmem : x ∉ rest := (lastIndexOf_eq_none_iff x rest).mp hr
        have hmemrev : x ∉ rest.reverse := fun hm => hmem (List.mem_reverse.mp hm)
        constructor
        · rw [List.drop_succ_cons, List.drop_zero, List.reverse_cons,
            takeWhile_append_right x rest.reverse [x] hmemrev]
          simp [List.takeWhile_cons]
        · rw [List.take_zero, List.reverse_cons,
            dropWhile_append_right x rest.reverse [x] hmemrev]
          simp [List.dropWhile_cons]
      · rw [if_neg hx] at h
        exact Option.noConfusion h
    · rw [hr] at h
      obtain rfl : j + 1 = i := Option.some.inj h
      have hmem : c ∈ rest := lastIndexOf_some_mem c rest j hr
      have hmemrev : c ∈ rest.reverse := List.mem_reverse.mpr hmem
      obtain ⟨ihd, iht⟩ := ih j hr
      constructor
      · rw [List.drop_succ_cons, List.reverse_cons,
          takeWhile_append_left c rest.reverse [x] hmemrev]
        exact ihd
      · rw [List.take_succ_cons, List.reverse_cons,
          dropWhile_append_left c rest.reverse [x] hmemrev]
        have hne : rest.reverse.dropWhile (fun x => x != c) ≠ [] :=
          dropWhile_ne_nil_of_mem c rest.reverse hmemrev
        have hlen : 1 ≤ (rest.reverse.dropWhile (fun x => x != c)).length :=
          Nat.one_le_iff_ne_zero.mpr (fun h0 => hne (List.length_eq_zero.mp h0))
        rw [List.drop_append_of_le_length hlen]
        simp [iht]

/-- `parseRepositoryTag` agrees with the reference definition everywhere. -/
theorem parseRepositoryTag_eq_specParse (ref : List Char) :
    parseRepositoryTag ref = specParseRepositoryTag ref := by
  by_cases hat : containsChar '@' ref
  · simp [parseRepositoryTag, specParseRepositoryTag, hat]
  · by_cases hcolon : containsChar ':' ref
    · have hmem : ':' ∈ ref := (containsChar_iff_mem ':' ref).mp hcolon
      have hnone : lastIndexOf ':' ref ≠ none := fun h =>
        ((lastIndexOf_eq_none_iff ':' ref).mp h) hmem
      rcases hidx : lastIndexOf ':' ref with _ | n
      · exact absurd hidx hnone
      · obtain ⟨hdrop, htake⟩ := lastIndexOf_slices ':' ref n hidx
        simp only [parseRepositoryTag, specParseRepositoryTag, hat, hidx,
          hcolon, if_false, if_true, eq_self_iff_true]
        rw [← hdrop, ← htake]
    · have hnone : lastIndexOf ':' ref = none :=
        (lastIndexOf_eq_none_iff ':' ref).mpr
          (fun hm => hcolon ((containsChar_iff_mem ':' ref).mpr hm))
      simp [parseRepositoryTag, specParseRepositoryTag, hat, hcolon, hnone]

/-- C6: `parseRepositoryTag` is total and equals the claim's reference
definition, and produces the spec's four example results; with multiple '@'
only parts[0] and parts[1] of the split survive. -/
theorem parseRepositoryTag_spec :
    (∀ ref, parseRepositoryTag ref = specParseRepositoryTag ref) ∧
    parseRepositoryTag "nginx".toList = ("nginx".toList, "latest".toList) ∧
    parseRepositoryTag "nginx:1.19".toList = ("nginx".toList, "1.19".toList) ∧
    parseRepositoryTag "localhost:5000/foo".toList =
      ("localhost:5000/foo".toList, "latest".toList) ∧
    parseRepositoryTag "repo@sha256:abcd".toList =
      ("repo".toList, "sha256:abcd".toList) ∧
    parseRepositoryTag "a@b@c".toList = ("a".toList, "b".toList) :=
  ⟨parseRepositoryTag_eq_specParse, by decide, by decide, by decide, by decide, by decide⟩

/-! ## Provider model (hyperd client)

The hyperd daemon is embedded as a pure oracle assigning a fixed response
to each provider call; lifecycle operations return both their Go result and
the ordered list of provider calls they issue. -/

/-- Provider errors, carried as their message string. -/
abbrev Err := String

/-- Provider calls issued by the lifecycle bridge. `startContainerNative`
marks a hypothetical native per-container start verb, which hyperd does not
offer and which the bridge never issues. -/
inductive HyperCall where
  | containerInfo (containerId : String)
  | stopPod (podId : String)
  | startPod (podId : String)
  | startContainerNative (containerId : String)
deriving DecidableEq, Repr

/-- Recognizes the hypothetical native per-container start call. -/
def isNativeStartCall : HyperCall → Bool
  | .startContainerNative _ => true
  | _ => false

/-- The slice of `types.ContainerInfo` the adapter reads: the owning pod id,
the status phase string, and the container's labels/image fields. -/
structure ContainerInfoData where
  podID : String
  phase : String
  labels : List (String × String)
  image : String
  imageID : String
deriving DecidableEq, Repr

/-- The slice of `types.ContainerListResult` the adapter reads. -/
structure ContainerListResult where
  containerID : String
  containerName : String
  podID : String
deriving DecidableEq, Repr

/-- The slice of `types.ImageInfo` the adapter reads. -/
structure ImageInfo where
  id : String
  repoTags : List String
  repoDigests : List String
  virtualSize : Nat
deriving DecidableEq, Repr

/-- The provider oracle: the response hyperd gives to each call
(`GetContainerInfo`, `GetContainerList(false)`, `GetImageList`, `StopPod`,
`StartPod`). -/
structure Provider where
  containerInfoR : String → Except Err ContainerInfoData
  containerListR : Except Err (List ContainerListResult)
  imageListR : Except Err (List ImageInfo)
  stopPodR : String → Except Err (Int × String)
  startPodR : String → Except Err Unit

/-- `Client.StartContainer` from the source: hyperd has no native start, so
the bridge looks up the container's owning pod, stops that pod, then starts
it again, propagating the first error and skipping the remaining steps. The
second component records the provider calls issued, in order. -/
def Client.StartContainer (pr : Provider) (containerID : String) :
    Except Err Unit × List HyperCall :=
  match pr.containerInfoR containerID with
  | .error e => (.error e, [.containerInfo containerID])
  | .ok info =>
    match pr.stopPodR info.podID with
    | .error e => (.error e, [.containerInfo containerID, .stopPod info.podID])
    | .ok _ =>
      match pr.startPodR info.podID with
      | .error e =>
        (.error e, [.containerInfo containerID, .stopPod info.podID, .startPod info.podID])
      | .ok _ =>
        (.ok (), [.containerInfo containerID, .stopPod info.podID, .startPod info.podID])

/-- `Client.StopContainer` from the source: a pure no-op returning nil — the
container is only stopped implicitly when its pod is stopped. -/
def Client.StopContainer (pr : Provider) (containerID : String) (timeout : Int) :
    Except Err Unit × List HyperCall :=
  (.ok (), [])

/-- `Client.RemoveContainer` from the source: a pure no-op returning nil. -/
def Client.RemoveContainer (pr : Provider) (containerID : String) :
    Except Err Unit × List HyperCall :=
  (.ok (), [])

/-- `KubeHyperManager.StartContainer`: delegates to the client bridge and
propagates its error, otherwise returns an empty response. -/
def KubeHyperManager.StartContainer (pr : Provider) (containerID : String) :
    Except Err Unit × List HyperCall :=
  let r := Client.StartContainer pr containerID
  match r.1 with
  | .error e => (.error e, r.2)
  | .ok _ => (.ok (), r.2)

/-- `KubeHyperManager.StopContainer`: delegates to the client no-op. -/
def KubeHyperManager.StopContainer (pr : Provider) (containerID : String) (timeout : Int) :
    Except Err Unit × List HyperCall :=
  let r := Client.StopContainer pr containerID timeout
  match r.1 with
  | .error e => (.error e, r.2)
  | .ok _ => (.ok (), r.2)

/-- `KubeHyperManager.RemoveContainer`: delegates to the client no-op. -/
def KubeHyperManager.RemoveContainer (pr : Provider) (containerID : String) :
    Except Err Unit × List HyperCall :=
  let r := Client.RemoveContainer pr containerID
  match r.1 with
  | .error e => (.error e, r.2)
  | .ok _ => (.ok (), r.2)

/-- C1: starting a container never issues a native per-container start; the
manager surface delegates to the client bridge unchanged; a failed info
lookup returns that error having issued only the lookup; once the lookup
names owning pod p, a failed pod stop returns that error without starting
anything, and a successful pod stop makes the issued calls exactly
lookup, one stop of p, then one start of p, in that order. -/
theorem startContainer_restarts_owning_pod :
    ∀ (pr : Provider) (c : String),
      ((Client.StartContainer pr c).2.any isNativeStartCall) = false ∧
      KubeHyperManager.StartContainer pr c = Client.StartContainer pr c ∧
      (∀ e, pr.containerInfoR c = .error e →
        Client.StartContainer pr c = (.error e, [.containerInfo c])) ∧
      (∀ info, pr.containerInfoR c = .ok info →
        (∀ e, pr.stopPodR info.podID = .error e →
          Client.StartContainer pr c =
            (.error e, [.containerInfo c, .stopPod info.podID])) ∧
        (∀ r, pr.stopPodR info.podID = .ok r →
          (Client.StartContainer pr c).2 =
            [.containerInfo c, .stopPod info.podID, .startPod info.podID] ∧
          (Client.StartContainer pr c).2.count (.stopPod info.podID) = 1 ∧
          (Client.StartContainer pr c).2.count (.startPod info.podID) = 1)) := by
  intro pr c
  refine ⟨?_, ?_, ?_, ?_⟩
  · rcases hI : pr.containerInfoR c with e | info
    · simp [Client.StartContainer, hI, isNativeStartCall]
    · rcases hS : pr.stopPodR info.podID with e | r
      · simp [Client.StartContainer, hI, hS, isNativeStartCall]
      · rcases hT : pr.startPodR info.podID with e | u
        · simp [Client.StartContainer, hI, hS, hT, isNativeStartCall]
        · simp [Client.StartContainer, hI, hS, hT, isNativeStartCall]
  · rcases hr : Client.StartContainer pr c with ⟨res, tr⟩
    cases res with
    | error e => simp [KubeHyperManager.StartContainer, hr]
    | ok u => simp [KubeHyperManager.StartContainer, hr]
  · intro e hI
    simp [Client.StartContainer, hI]
  · intro info hI
    constructor
    · intro e hS
      simp [Client.StartContainer, hI, hS]
    · intro r hS
      rcases hT : pr.startPodR info.podID with e | u
      · refine ⟨?_, ?_, ?_⟩ <;> simp [Client.StartContainer, hI, hS, hT, List.count_cons]
      · refine ⟨?_, ?_, ?_⟩ <;> simp [Client.StartContainer, hI, hS, hT, List.count_cons]

/-- A concrete provider for evaluating the lifecycle bridge: container "c"
lives in pod "p"; all pod operations succeed. -/
def prBridge : Provider :=
  ⟨fun id => if id = "c" then .ok ⟨"p", "running", [], "img", "sha"⟩
             else .error "no such container",
   .ok [], .ok [], fun _ => .ok (0, ""), fun _ => .ok ()⟩

/-- Evaluation of `startContainer_restarts_owning_pod` on `prBridge`:
starting "c" stops then starts pod "p", and an unknown container id
propagates the lookup error after the lookup alone. -/
theorem startContainer_restarts_owning_pod_witness :
    (Client.StartContainer prBridge "c").2 =
      [.containerInfo "c", .stopPod "p", .startPod "p"] ∧
    Client.StartContainer prBridge "x" =
      (.error "no such container", [.containerInfo "x"]) :=
  ⟨(((startContainer_restarts_owning_pod prBridge "c").2.2.2
      ⟨"p", "running", [], "img", "sha"⟩ rfl).2 (0, "") rfl).1,
   (startContainer_restarts_owning_pod prBridge "x").2.2.1 "no such container" rfl⟩

/-- C2: for every container id and timeout, both surfaces of StopContainer
and RemoveContainer return success, issue no provider call (so provider
state is untouched and a second identical call succeeds the same way), and
never return an error. -/
theorem stopRemoveContainer_noop :
    ∀ (pr : Provider) (cid : String) (timeout : Int),
      Client.StopContainer pr cid timeout = (.ok (), []) ∧
      Client.RemoveContainer pr cid = (.ok (), []) ∧
      KubeHyperManager.StopContainer pr cid timeout = (.ok (), []) ∧
      KubeHyperManager.RemoveContainer pr cid = (.ok (), []) :=
  fun pr cid timeout => ⟨rfl, rfl, rfl, rfl⟩

/-! ## Container listing (ListContainers, both entry surfaces) -/

/-- Consumer-side container listing item (kubeapi.Container). -/
structure KubeContainer where
  id : String
  name : String
  image : String
  imageRef : String
  labels : List (String × String)
  state : ContainerState
deriving DecidableEq, Repr

/-- Consumer-side container filter (kubeapi.ContainerFilter); label maps
are association lists with distinct keys. -/
structure ContainerFilter where
  id : Option String
  name : Option String
  podSandboxId : Option String
  state : Option ContainerState
  labelSelector : Option (List (String × String))

/-- `inMap` from the source: every key of `m` must be present in `dest`
with an equal value (subset containment). -/
def inMap (m dest : List (String × String)) : Bool :=
  m.all fun kv =>
    match dest.lookup kv.1 with
    | some v => v == kv.2
    | none => false

/-- `strings.TrimPrefix(name, "/")`. -/
def trimLeadingSlash (s : String) : String :=
  if s.startsWith "/" then s.drop 1 else s

/-- The three filter checks `ListContainers` applies before the per-item
info lookup: a set name, id, or pod-sandbox id predicate that does not
match makes the loop skip the container without looking it up. -/
def containerPreSkip (filter : Option ContainerFilter) (c : ContainerListResult) : Bool :=
  match filter with
  | none => false
  | some f =>
    (match f.name with
     | some n => !(trimLeadingSlash c.containerName == n)
     | none => false) ||
    (match f.id with
     | some i => !(c.containerID == i)
     | none => false) ||
    (match f.podSandboxId with
     | some p => !(c.podID == p)
     | none => false)

/-- The two filter checks `ListContainers` applies after the info lookup:
a state mismatch or a label selector not contained in the container's
labels. -/
def containerPostSkip (filter : Option ContainerFilter) (st : ContainerState)
    (info : ContainerInfoData) : Bool :=
  match filter with
  | none => false
  | some f =>
    (match f.state with
     | some want => !(st == want)
     | none => false) ||
    (match f.labelSelector with
     | some sel => !(inMap sel info.labels)
     | none => false)

/-- The per-item loop of `ListContainers`: pre-filter, info lookup (whose
error aborts the whole listing), post-filter, append. -/
def listContainersLoop (pr : Provider) (filter : Option ContainerFilter) :
    List ContainerListResult → Except Err (List KubeContainer)
  | [] => .ok []
  | c :: rest =>
    if containerPreSkip filter c then listContainersLoop pr filter rest
    else
      match pr.containerInfoR c.containerID with
      | .error e => .error e
      | .ok info =>
        let st := toKubeContainerState info.phase
        if containerPostSkip filter st info then listContainersLoop pr filter rest
        else
          match listContainersLoop pr filter rest with
          | .error e => .error e
          | .ok out =>
            .ok (⟨c.containerID, trimLeadingSlash c.containerName, info.image,
                  info.imageID, info.labels, st⟩ :: out)

/-- `ListContainers` (identical logic in `KubeHyperManager.ListContainers`
and `HyperRuntime.ListContainers`): fetch the provider's container list and
run the filtering/enrichment loop. -/
def KubeHyperManager.ListContainers (pr : Provider) (filter : Option ContainerFilter) :
    Except Err (List KubeContainer) :=
  match pr.containerListR with
  | .error e => .error e
  | .ok cl => listContainersLoop pr filter cl

theorem listContainersLoop_abort (pr : Provider) (filter : Option ContainerFilter) :
    ∀ (cl₁ : List ContainerListResult) (c : ContainerListResult)
      (cl₂ : List ContainerListResult) (e : Err),
      (∀ c' ∈ cl₁, containerPreSkip filter c' = true ∨
        ∃ i, pr.containerInfoR c'.containerID = .ok i) →
      containerPreSkip filter c = false →
      pr.containerInfoR c.containerID = .error e →
      listContainersLoop pr filter (cl₁ ++ c :: cl₂) = .error e := by
  intro cl₁
  induction cl₁ with
  | nil =>
    intro c cl₂ e hpre hskip hinfo
    simp [listContainersLoop, hskip, hinfo]
  | cons c' cl₁' ih =>
    intro c cl₂ e hpre hskip hinfo
    have hrest : listContainersLoop pr filter (cl₁' ++ c :: cl₂) = .error e :=
      ih c cl₂ e (fun x hx => hpre x (List.mem_cons_of_mem c' hx)) hskip hinfo
    rcases hpre c' (List.mem_cons_self c' cl₁') with hskip' | ⟨i, hok⟩
    · simp [listContainersLoop, hskip', hrest]
    · by_cases hpost : containerPostSkip filter (toKubeContainerState i.phase) i = true
      · cases hsk : containerPreSkip filter c'
        · simp [listContainersLoop, hsk, hok, hpost, hrest]
        · simp [listContainersLoop, hsk, hrest]
      · cases hsk : containerPreSkip filter c'
        · simp [listContainersLoop, hsk, hok,
            Bool.of_not_eq_true hpost, hrest]
        · simp [listContainersLoop, hsk, hrest]

/-- A concrete provider with five listed containers whose third container's
info lookup fails. -/
def prFiveContainers : Provider :=
  ⟨fun id => if id = "c3" then .error "boom"
             else .ok ⟨"p1", "running", [], "img", "sha"⟩,
   .ok [⟨"c1", "/a", "p1"⟩, ⟨"c2", "/b", "p1"⟩, ⟨"c3", "/c", "p1"⟩,
        ⟨"c4", "/d", "p1"⟩, ⟨"c5", "/e", "p1"⟩],
   .ok [], fun _ => .ok (0, ""), fun _ => .ok ()⟩

/-- C7: whenever the provider listing succeeds and some listed container
that reaches its per-item info lookup (i.e. is not skipped by the
name/id/pod pre-filter, and every listed container before it either is
skipped or looks up successfully) has a failing lookup, `ListContainers`
returns exactly that lookup's error — by the return type it then returns no
list at all, in particular no partial list; concretely, when the 3rd of 5
listed containers fails its lookup the whole listing is that error. -/
theorem listContainers_abort_on_lookup_failure :
    (∀ (pr : Provider) (filter : Option ContainerFilter)
       (cl₁ : List ContainerListResult) (c : ContainerListResult)
       (cl₂ : List ContainerListResult) (e : Err),
      pr.containerListR = .ok (cl₁ ++ c :: cl₂) →
      (∀ c' ∈ cl₁, containerPreSkip filter c' = true ∨
        ∃ i, pr.containerInfoR c'.containerID = .ok i) →
      containerPreSkip filter c = false →
      pr.containerInfoR c.containerID = .error e →
      KubeHyperManager.ListContainers pr filter = .error e) ∧
    KubeHyperManager.ListContainers prFiveContainers none = .error "boom" := by
  constructor
  · intro pr filter cl₁ c cl₂ e hlist hpre hskip hinfo
    rw [KubeHyperManager.ListContainers, hlist]
    exact listContainersLoop_abort pr filter cl₁ c cl₂ e hpre hskip hinfo
  · rfl

/-- Evaluation of `listContainers_abort_on_lookup_failure` on the concrete
five-container provider with an all-absent filter, discharging every
hypothesis at the failing third container. -/
theorem listContainers_abort_on_lookup_failure_witness :
    KubeHyperManager.ListContainers prFiveContainers
      (some ⟨none, none, none, none, none⟩) = .error "boom" := by
  refine listContainers_abort_on_lookup_failure.1 prFiveContainers
    (some ⟨none, none, none, none, none⟩)
    [⟨"c1", "/a", "p1"⟩, ⟨"c2", "/b", "p1"⟩] ⟨"c3", "/c", "p1"⟩
    [⟨"c4", "/d", "p1"⟩, ⟨"c5", "/e", "p1"⟩] "boom" rfl ?_ rfl rfl
  intro c' hc'
  rcases List.mem_cons.mp hc' with rfl | hc'
  · exact Or.inr ⟨_, rfl⟩
  rcases List.mem_cons.mp hc' with rfl | hc'
  · exact Or.inr ⟨_, rfl⟩
  · exact absurd hc' (List.not_mem_nil c')

/-! ## Image listing (ListImages, both entry surfaces) -/

/-- Consumer-side image listing item (kubeapi.Image). -/
structure KubeImage where
  id : String
  repoTags : List String
  repoDigests : List String
  size : Nat
deriving DecidableEq, Repr

/-- `inList` from the source: exact string membership. -/
def inList (x : String) : List String → Bool
  | [] => false
  | s :: rest => if x == s then true else inList x rest

/-- `strings.Contains(s, ":")` for the one-character needle, evaluated over
the string's characters. -/
def stringContainsChar (s : String) (c : Char) : Bool :=
  containsChar c s.toList

/-- The translation of one provider image into the consumer shape. -/
def mkKubeImage (img : ImageInfo) : KubeImage :=
  ⟨img.id, img.repoTags, img.repoDigests, img.virtualSize⟩

/-- The per-image loop of `ListImages`: with a non-nil filter, the filter's
image string gets ":latest" appended when it contains no ':', and the image
is kept iff its repoTags contain that normalized string verbatim. -/
def listImagesLoop (filter : Option String) : List ImageInfo → List KubeImage
  | [] => []
  | img :: rest =>
    match filter with
    | none => mkKubeImage img :: listImagesLoop filter rest
    | some fs =>
      let fl := if stringContainsChar fs ':' then fs else fs ++ ":latest"
      if inList fl img.repoTags then mkKubeImage img :: listImagesLoop filter rest
      else listImagesLoop filter rest

/-- `ListImages` (identical logic in `KubeHyperManager.ListImages` and
`HyperRuntime.ListImages`): fetch the provider image list and filter it.
`filter = some fs` models a non-nil `req.Filter` whose `Image.GetImage()`
returns `fs`. -/
def KubeHyperManager.ListImages (pr : Provider) (filter : Option String) :
    Except Err (List KubeImage) :=
  match pr.imageListR with
  | .error e => .error e
  | .ok images => .ok (listImagesLoop filter images)

theorem listImagesLoop_filter (fs : String) (images : List ImageInfo) :
    listImagesLoop (some fs) images =
      (images.filter (fun img =>
        inList (if stringContainsChar fs ':' then fs else fs ++ ":latest")
          img.repoTags)).map mkKubeImage := by
  induction images with
  | nil => rfl
  | cons img rest ih =>
    by_cases h : inList (if stringContainsChar fs ':' then fs else fs ++ ":latest")
        img.repoTags = true
    · simp [listImagesLoop, h, List.filter_cons, ih]
    · simp [listImagesLoop, Bool.of_not_eq_true h, List.filter_cons, ih]

/-- A provider exposing one image, tagged with a registry-port reference
and identified by a digest-like id. -/
def prImages : Provider :=
  ⟨fun _ => .error "unused", .ok [], .ok [⟨"sha256:abcd",
    ["localhost:5000/foo:latest"], [], 100⟩], fun _ => .ok (0, ""), fun _ => .ok ()⟩

/-- C10: with any non-nil image filter, `ListImages` keeps exactly the
images whose repoTags contain, verbatim, the filter string normalized by
appending ":latest" iff it has no ':' anywhere; matching never consults the
image id or digests, so the registry-port reference "localhost:5000/foo"
(which contains ':' and is not normalized) matches nothing even though the
repoTag "localhost:5000/foo:latest" exists, while the verbatim repoTag and
an id-valued filter behave as exact repoTag lookups. -/
theorem listImages_filter_semantics :
    (∀ (pr : Provider) (images : List ImageInfo) (fs : String),
      pr.imageListR = .ok images →
      KubeHyperManager.ListImages pr (some fs) =
        .ok ((images.filter (fun img =>
          inList (if stringContainsChar fs ':' then fs else fs ++ ":latest")
            img.repoTags)).map mkKubeImage)) ∧
    KubeHyperManager.ListImages prImages (some "localhost:5000/foo") = .ok [] ∧
    KubeHyperManager.ListImages prImages (some "localhost:5000/foo:latest") =
      .ok [⟨"sha256:abcd", ["localhost:5000/foo:latest"], [], 100⟩] ∧
    KubeHyperManager.ListImages prImages (some "sha256:abcd") = .ok [] := by
  refine ⟨?_, rfl, rfl, rfl⟩
  intro pr images fs hlist
  simp [KubeHyperManager.ListImages, hlist, listImagesLoop_filter]

/-- Evaluation of `listImages_filter_semantics` on the concrete provider,
discharging its listing hypothesis. -/
theorem listImages_filter_semantics_witness :
    KubeHyperManager.ListImages prImages (some "localhost:5000/foo") =
      .ok ((([⟨"sha256:abcd", ["localhost:5000/foo:latest"], [], 100⟩] :
        List ImageInfo).filter (fun img =>
          inList (if stringContainsChar "localhost:5000/foo" ':' then "localhost:5000/foo"
            else "localhost:5000/foo" ++ ":latest") img.repoTags)).map mkKubeImage) :=
  listImages_filter_semantics.1 prImages
    [⟨"sha256:abcd", ["localhost:5000/foo:latest"], [], 100⟩] "localhost:5000/foo" rfl

/-! ## Auth-config translation (both entry surfaces) -/

/-- Consumer-side auth config (kubeapi.AuthConfig): every field is an
optional pointer, so "unset" and "empty string" are distinguishable. -/
structure KubeAuthConfig where
  username : Option String
  password : Option String
  auth : Option String
  registryToken : Option String
  serverAddress : Option String
deriving DecidableEq, Repr

/-- Provider-side auth config (types.AuthConfig): plain string fields whose
default is the empty string. -/
structure HyperAuthConfig where
  username : String
  password : String
  auth : String
  registrytoken : String
  serveraddress : String
deriving DecidableEq, Repr

/-- `getHyperAuthConfig` from the manager entry surface: a nil input maps
to a nil provider config; otherwise each explicitly set field is copied
onto a zero-valued config. -/
def getHyperAuthConfigManager (auth : Option KubeAuthConfig) : Option HyperAuthConfig :=
  match auth with
  | none => none
  | some a =>
    let config : HyperAuthConfig := ⟨"", "", "", "", ""⟩
    let config := match a.username with
      | some u => { config with username := u }
      | none => config
    let config := match a.password with
      | some p => { config with password := p }
      | none => config
    let config := match a.auth with
      | some x => { config with auth := x }
      | none => config
    let config := match a.registryToken with
      | some t => { config with registrytoken := t }
      | none => config
    let config := match a.serverAddress with
      | some s => { config with serveraddress := s }
      | none => config
    some config

/-- `getHyperAuthConfig` from the hyper entry surface: identical field
copying, but a nil input maps to an empty (zero-valued) provider config
rather than to nil. -/
def getHyperAuthConfigHyper (auth : Option KubeAuthConfig) : Option HyperAuthConfig :=
  match auth with
  | none => some ⟨"", "", "", "", ""⟩
  | some a =>
    let config : HyperAuthConfig := ⟨"", "", "", "", ""⟩
    let config := match a.username with
      | some u => { config with username := u }
      | none => config
    let config := match a.password with
      | some p => { config with password := p }
      | none => config
    let config := match a.auth with
      | some x => { config with auth := x }
      | none => config
    let config := match a.registryToken with
      | some t => { config with registrytoken := t }
      | none => config
    let config := match a.serverAddress with
      | some s => { config with serveraddress := s }
      | none => config
    some config

/-- C9 counterexample: on absent (nil) auth input the two entry surfaces
disagree — the manager surface returns nil (no config at all) while the
hyper surface returns an empty default config. -/
theorem getHyperAuthConfig_nil_divergence :
    getHyperAuthConfigManager none = none ∧
    getHyperAuthConfigHyper none = some ⟨"", "", "", "", ""⟩ :=
  ⟨rfl, rfl⟩

/-- C9 (amended): on absent input the hyper surface returns the empty
default config while the manager surface returns nil; on present input both
surfaces agree and produce exactly the explicitly-set fields, leaving every
unset field at its empty-string default. -/
theorem getHyperAuthConfig_fields :
    getHyperAuthConfigManager none = none ∧
    getHyperAuthConfigHyper none = some ⟨"", "", "", "", ""⟩ ∧
    (∀ a : KubeAuthConfig,
      getHyperAuthConfigManager (some a) =
        some ⟨a.username.getD "", a.password.getD "", a.auth.getD "",
          a.registryToken.getD "", a.serverAddress.getD ""⟩ ∧
      getHyperAuthConfigHyper (some a) = getHyperAuthConfigManager (some a)) := by
  refine ⟨rfl, rfl, fun a => ?_⟩
  rcases a with ⟨u, p, x, t, s⟩
  cases u <;> cases p <;> cases x <;> cases t <;> cases s <;> exact ⟨rfl, rfl⟩

/-! ## Timestamp parsing (parseTimeString, both entry surfaces)

`parseTimeString` delegates to Go's `time.Parse` with the fixed layout
"2006-01-02T15:04:05Z"; `time.Parse` is an external standard-library
collaborator whose boundary behavior the spec fixes: a non-empty input must
match the layout `YYYY-MM-DDThh:mm:ssZ` exactly, anything else is a parse
error. Timestamps are embedded as character lists; the ambient local time
zone (which fixes the unix value of Go's zero date) is a parameter. -/

/-- The numeric value of a decimal digit character. -/
def digitVal (c : Char) : Int :=
  (c.toNat : Int) - 48

/-- Gregorian leap-year rule. -/
def isLeapYear (y : Int) : Bool :=
  y % 4 == 0 && (y % 100 != 0 || y % 400 == 0)

/-- Days in a month of the proleptic Gregorian calendar. -/
def daysInMonth (m y : Int) : Int :=
  if m = 2 then (if isLeapYear y then 29 else 28)
  else if m = 4 ∨ m = 6 ∨ m = 9 ∨ m = 11 then 30
  else 31

/-- Days from 1970-01-01 to the given proleptic Gregorian civil date. -/
def daysFromCivil (y m d : Int) : Int :=
  let y2 := if m ≤ 2 then y - 1 else y
  let era := Int.fdiv y2 400
  let yoe := y2 - era * 400
  let mp := Int.fmod (m + 9) 12
  let doy := Int.fdiv (153 * mp + 2) 5 + d - 1
  let doe := yoe * 365 + Int.fdiv yoe 4 - Int.fdiv yoe 100 + doy
  era * 146097 + doe - 719468

/-- Modelled from the spec: whether a string matches the fixed layout
`YYYY-MM-DDThh:mm:ssZ` — exactly 20 characters, digits and literal
separators in the layout's positions, and calendar-valid field values. -/
def layoutMatches (s : List Char) : Bool :=
  match s with
  | [y1, y2, y3, y4, sep1, m1, m2, sep2, d1, d2, sep3,
     h1, h2, sep4, n1, n2, sep5, s1, s2, sep6] =>
    y1.isDigit && y2.isDigit && y3.isDigit && y4.isDigit && sep1 == '-' &&
    m1.isDigit && m2.isDigit && sep2 == '-' &&
    d1.isDigit && d2.isDigit && sep3 == 'T' &&
    h1.isDigit && h2.isDigit && sep4 == ':' &&
    n1.isDigit && n2.isDigit && sep5 == ':' &&
    s1.isDigit && s2.isDigit && sep6 == 'Z' &&
    (let y := 1000 * digitVal y1 + 100 * digitVal y2 + 10 * digitVal y3 + digitVal y4
     let mo := 10 * digitVal m1 + digitVal m2
     let d := 10 * digitVal d1 + digitVal d2
     let h := 10 * digitVal h1 + digitVal h2
     let mi := 10 * digitVal n1 + digitVal n2
     let se := 10 * digitVal s1 + digitVal s2
     decide (1 ≤ mo) && decide (mo ≤ 12) && decide (1 ≤ d) &&
     decide (d ≤ daysInMonth mo y) && decide (h ≤ 23) && decide (mi ≤ 59) &&
     decide (se ≤ 59))
  | _ => false

/-- The unix-seconds value of a layout-shaped timestamp (UTC, since the
layout's lone "Z" is a literal and `time.Parse` defaults to UTC). -/
def timeUnixOf (s : List Char) : Int :=
  match s with
  | [y1, y2, y3, y4, _, m1, m2, _, d1, d2, _, h1, h2, _, n1, n2, _, s1, s2, _] =>
    let y := 1000 * digitVal y1 + 100 * digitVal y2 + 10 * digitVal y3 + digitVal y4
    let mo := 10 * digitVal m1 + digitVal m2
    let d := 10 * digitVal d1 + digitVal d2
    let h := 10 * digitVal h1 + digitVal h2
    let mi := 10 * digitVal n1 + digitVal n2
    let se := 10 * digitVal s1 + digitVal s2
    daysFromCivil y mo d * 86400 + h * 3600 + mi * 60 + se
  | _ => 0

/-- Modelled from the spec: `time.Parse("2006-01-02T15:04:05Z", s)` at the
boundary — the parsed time's unix seconds when the layout matches, an error
otherwise. -/
def timeParse (s : List Char) : Option Int :=
  if layoutMatches s then some (timeUnixOf s) else none

/-- `parseTimeString` from the source (identical in both entry surfaces):
the empty string maps to the unix value of Go's zero date in the local time
zone (`zeroUnix`) with no error; any other string is handed to the layout
parser and a parse failure is returned as an error. -/
def parseTimeString (zeroUnix : Int) (s : List Char) : Except Err Int :=
  if s = [] then .ok zeroUnix
  else
    match timeParse s with
    | some u => .ok u
    | none => .error "parsing time error"

/-- C8: `parseTimeString` returns the epoch-zero local-time unix value with
no error on the empty string; on every non-empty string it errors exactly
when the input does not match the fixed layout `YYYY-MM-DDThh:mm:ssZ`, and
otherwise returns the parsed time's unix seconds with no error. -/
theorem parseTimeString_spec :
    ∀ (zeroUnix : Int) (s : List Char),
      (s = [] → parseTimeString zeroUnix s = .ok zeroUnix) ∧
      (s ≠ [] →
        ((parseTimeString zeroUnix s = .error "parsing time error") ↔
          layoutMatches s = false) ∧
        (layoutMatches s = true →
          parseTimeString zeroUnix s = .ok (timeUnixOf s))) := by
  intro zeroUnix s
  constructor
  · intro h
    subst h
    rfl
  · intro hne
    cases hL : layoutMatches s
    · refine ⟨?_, ?_⟩ <;> simp [parseTimeString, timeParse, hne, hL]
    · refine ⟨?_, ?_⟩ <;> simp [parseTimeString, timeParse, hne, hL]

/-- Evaluation of `parseTimeString_spec` at the empty string, a
layout-conforming timestamp, and a malformed string, discharging each
hypothesis. -/
theorem parseTimeString_spec_witness :
    parseTimeString 7 [] = .ok 7 ∧
    parseTimeString 7 "2016-10-05T12:30:45Z".toList =
      .ok (timeUnixOf "2016-10-05T12:30:45Z".toList) ∧
    parseTimeString 7 "garbage".toList = .error "parsing time error" :=
  ⟨(parseTimeString_spec 7 []).1 rfl,
   ((parseTimeString_spec 7 "2016-10-05T12:30:45Z".toList).2 (by decide)).2 (by decide),
   ((parseTimeString_spec 7 "garbage".toList).2 (by decide)).1.mpr (by decide)⟩

end Frakti
